import Mathlib

/-!
Verification of the database-backed exchange-rate provider of
`@mixxtor/currencyx-adonisjs`.

The repository contains two generations of the provider:

* `DatabaseExchange` (src/src/exchanges/database.ts) — validates inputs,
  fetches both records with a single `whereIn` query, and computes
  `convertRate = (1 / fromRate) * toRate`;
* `DatabaseProvider` (src/src/exchanges/database_exchange.ts, identical
  rate logic in the older revision) — resolves the rate per branch
  (base→X, X→base, cross) with one `.first()` query per record.

JavaScript numbers are modelled as `ℚ` (exact rationals): the claims are
about which branch runs, which error is produced and which arithmetic
expression is computed, not about IEEE-754 rounding.  `ℚ` has no `NaN` /
`Infinity`, which is faithful because every division in the source is
reached only behind a guard that the embedded definitions reproduce.

A record's rate column is `Option ℚ` (`none` = SQL `NULL` / missing
column); JavaScript falsiness of a rate (`!x`) is `none` or `some 0`.
Wall-clock fields of the result envelopes (`timestamp`, `date`) are
derived from `Date.now()` and are left out of the model; every other
field of the envelopes is embedded under its source name.

Storage access is made observable: every operation that can issue a
database query returns, next to its result, the number of queries it
performed, so "performs no storage access" is `count = 0`.
-/

instance {ε α : Type} [DecidableEq ε] [DecidableEq α] : DecidableEq (Except ε α) := fun
  | .error a, .error b =>
    match decEq a b with
    | isTrue h => isTrue (by rw [h])
    | isFalse h => isFalse (by intro hh; injection hh; contradiction)
  | .error _, .ok _ => isFalse (by intro hh; injection hh)
  | .ok _, .error _ => isFalse (by intro hh; injection hh)
  | .ok a, .ok b =>
    match decEq a b with
    | isTrue h => isTrue (by rw [h])
    | isFalse h => isFalse (by intro hh; injection hh; contradiction)

/-- One row of the currency table, already projected through the column
mapping (`columns.code`, `columns.rate`, `columns.updated_at`).
`rate = none` models a missing / NULL rate column. -/
structure CurrencyRecord where
  code : String
  rate : Option ℚ
  updatedAt : Option Nat := none
  deriving DecidableEq, Repr

/-- The currency table the Lucid model queries (source of truth). -/
abbrev Store := List CurrencyRecord

/-- `Model.query().where(columns.code, c).first()`. -/
def findFirst (store : Store) (c : String) : Option CurrencyRecord :=
  store.find? (fun r => r.code == c)

/-- `Model.query().whereIn(columns.code, codes)` (all matching rows,
in table order). -/
def whereIn (store : Store) (codes : List String) : List CurrencyRecord :=
  store.filter (fun r => codes.contains r.code)

/-- JavaScript falsiness of a rate column value: `undefined`/`null` or `0`. -/
def rateFalsy : Option ℚ → Bool
  | none => true
  | some q => q == 0

/-- JavaScript falsiness of an optional string: `undefined` or `""`. -/
def strFalsy : Option String → Bool
  | none => true
  | some s => s == ""

/-- The `error` field of a result envelope: `{ info, type? }`. -/
structure ConvError where
  info : String
  type : Option String := none
  deriving DecidableEq, Repr

/-- The `query` echo of a `ConversionResult`. -/
structure ConvQuery where
  fromC : Option String
  toC : Option String
  amount : Option ℚ
  deriving DecidableEq, Repr

/-- The `info` block of a `ConversionResult` (clock timestamp omitted). -/
structure ConvInfo where
  rate : Option ℚ
  deriving DecidableEq, Repr

/-- `ConversionResult` envelope (clock fields omitted). -/
structure ConversionResult where
  success : Bool
  query : ConvQuery
  info : ConvInfo
  result : Option ℚ
  error : Option ConvError
  deriving DecidableEq, Repr

/-- `ExchangeRatesResult` envelope (clock fields omitted); `rates` is the
code→rate object in insertion order. -/
structure RatesResult where
  success : Bool
  base : String
  rates : List (String × ℚ)
  error : Option ConvError
  deriving DecidableEq, Repr

namespace DatabaseProvider

/-- The two error classes `#getExchangeRate` can throw:
`rateNotFound c` ↦ "Exchange rate not found for currency: c",
`invalidRate c` ↦ "Invalid exchange rate for currency: c". -/
inductive RateError where
  | rateNotFound (code : String)
  | invalidRate (code : String)
  deriving DecidableEq, Repr

/-- `error.message` of a thrown `RateError`. -/
def rateErrorMessage : RateError → String
  | .rateNotFound c => "Exchange rate not found for currency: " ++ c
  | .invalidRate c => "Invalid exchange rate for currency: " ++ c

/-- `DatabaseProvider.#getExchangeRate(from, to)` from
src/src/exchanges/database_exchange.ts (identical to `getExchangeRate` in
the older revision).  Returns the resolved rate or the thrown error,
together with the number of `.first()` storage queries issued.  The
`fromRateValue === 0` guard of the source is embedded literally as the
last `if` of the cross-rate branch (the `fromRateValue` / `toRateValue`
consts are inlined). -/
def getExchangeRate (base : String) (store : Store) (fromC toC : String) :
    Except RateError ℚ × Nat :=
  if fromC = base ∧ toC = base then
    (Except.ok 1, 0)
  else if fromC = base then
    match findFirst store toC with
    | none => (Except.error (RateError.rateNotFound toC), 1)
    | some toRate =>
        if rateFalsy toRate.rate then (Except.error (RateError.rateNotFound toC), 1)
        else (Except.ok (toRate.rate.getD 0), 1)
  else if toC = base then
    match findFirst store fromC with
    | none => (Except.error (RateError.rateNotFound fromC), 1)
    | some fromRate =>
        if rateFalsy fromRate.rate then (Except.error (RateError.rateNotFound fromC), 1)
        else (Except.ok (1 / fromRate.rate.getD 0), 1)
  else
    match findFirst store fromC, findFirst store toC with
    | none, _ => (Except.error (RateError.rateNotFound fromC), 2)
    | some fromRate, _ =>
        if rateFalsy fromRate.rate then (Except.error (RateError.rateNotFound fromC), 2)
        else
          match findFirst store toC with
          | none => (Except.error (RateError.rateNotFound toC), 2)
          | some toRate =>
              if rateFalsy toRate.rate then (Except.error (RateError.rateNotFound toC), 2)
              else if fromRate.rate.getD 0 = 0 then
                (Except.error (RateError.invalidRate fromC), 2)
              else (Except.ok (toRate.rate.getD 0 / fromRate.rate.getD 0), 2)

/-- Behaviour of the `@adonisjs/cache` backend as seen by
`DatabaseProvider`'s per-pair rate cache: `get` either returns a value
(`none` = cache miss / `null`) or throws.  `set` may also throw, but the
source swallows that error in `setToCache`, so it has no observable
effect on any envelope and is not modelled. -/
structure RateCacheBackend where
  get : String → Except String (Option ℚ)

/-- `DatabaseProvider.#getFromCache(key)`: `null` when the cache is not
active; a thrown backend error is caught (`console.error`) and also
yields `null`. -/
def getFromCache (cacheActive : Bool) (cb : RateCacheBackend) (key : String) : Option ℚ :=
  if cacheActive then
    match cb.get key with
    | .error _ => none
    | .ok v => v
  else none

/-- The shared fetch-and-wrap tail of `DatabaseProvider.convert`: compute
the rate via `#getExchangeRate` inside the `try`; a thrown `RateError`
becomes the catch-block failure envelope (`type: 'database_error'`). -/
def convertFetch (base : String) (store : Store) (amount : ℚ) (fromC toC : String) :
    ConversionResult × Nat :=
  match getExchangeRate base store fromC toC with
  | (.error e, n) =>
      ({ success := false, query := ⟨some fromC, some toC, some amount⟩, info := ⟨none⟩,
         result := none, error := some ⟨rateErrorMessage e, some "database_error"⟩ }, n)
  | (.ok r, n) =>
      ({ success := true, query := ⟨some fromC, some toC, some amount⟩, info := ⟨some r⟩,
         result := some (amount * r), error := none }, n)

/-- `DatabaseProvider.convert(params)` from
src/src/exchanges/database_exchange.ts.  `cacheActive` abbreviates
"cacheConfig present ∧ enabled ∧ cache service resolved" (the post-setup
state).  A cached rate of `0` is falsy (`if (!rate)`) and falls through
to the database like a miss.  The `setToCache` after a fetched rate
swallows its own errors and does not affect the envelope. -/
def convert (base : String) (store : Store) (cacheActive : Bool) (cb : RateCacheBackend)
    (keyPrefix : String) (amount : ℚ) (fromC toC : String) : ConversionResult × Nat :=
  if fromC = toC then
    ({ success := true, query := ⟨some fromC, some toC, some amount⟩,
       info := ⟨some 1⟩, result := some amount, error := none }, 0)
  else
    match getFromCache cacheActive cb (keyPrefix ++ ":rate:" ++ fromC ++ ":" ++ toC) with
    | some v =>
        if v = 0 then convertFetch base store amount fromC toC
        else
          ({ success := true, query := ⟨some fromC, some toC, some amount⟩,
             info := ⟨some v⟩, result := some (amount * v), error := none }, 0)
    | none => convertFetch base store amount fromC toC

end DatabaseProvider

/-- Insertion sort on strings: `codes.sort()` used to build the
`#getCurrenciesByCodes` cache key. -/
def insertSorted (s : String) : List String → List String
  | [] => [s]
  | t :: ts => if s ≤ t then s :: t :: ts else t :: insertSorted s ts

/-- `codes.sort()`. -/
def sortStrings : List String → List String
  | [] => []
  | s :: ss => insertSorted s (sortStrings ss)

/-- `result.rates[code] = rate` on a JavaScript object: overwrite an
existing key in place, otherwise append in insertion order. -/
def insertRate : List (String × ℚ) → String → ℚ → List (String × ℚ)
  | [], c, v => [(c, v)]
  | (c0, v0) :: rest, c, v =>
      if c0 = c then (c0, v) :: rest else (c0, v0) :: insertRate rest c v

namespace DatabaseExchange

/-- Behaviour of the cache service as used by `DatabaseExchange`: the
read-through `getOrSet(key, factory, ttl)` receives the value the direct
storage read (`factory`) would produce and either returns a record list
(a hit may return anything) or throws.  The source does not wrap this
call in a `try`/`catch` of its own. -/
structure ListCacheBackend where
  getOrSet : String → List CurrencyRecord → Except String (List CurrencyRecord)

/-- Post-setup cache state of a `DatabaseExchange` instance:
`handle` is `this.cache` (`none` when unset or setup failed),
`configured` is the truthiness of `this.config.cache`. -/
structure CacheState where
  handle : Option ListCacheBackend
  configured : Bool

/-- `DatabaseExchange.#currencyList(useCache)`:
`if (!useCache || !this.cache || !this.config.cache) return await query`,
otherwise `this.cache.getOrSet({ key: prefix, factory: () => query, ttl })`.
Either way exactly one storage query backs the call. -/
def currencyList (store : Store) (cs : CacheState) (keyPrefix : String) (useCache : Bool) :
    Except String (List CurrencyRecord) × Nat :=
  match cs.handle, cs.configured, useCache with
  | some cb, true, true => (cb.getOrSet keyPrefix store, 1)
  | _, _, _ => (Except.ok store, 1)

/-- `DatabaseExchange.#getCurrenciesByCodes(codes, useCache)`: empty
`codes` falls back to `#currencyList`; otherwise a `whereIn` query,
cached under `` `${prefix}_${codes.sort().join('_')}` `` when the cache
is active. -/
def getCurrenciesByCodes (store : Store) (cs : CacheState) (keyPrefix : String)
    (codes : List String) (useCache : Bool) : Except String (List CurrencyRecord) × Nat :=
  if codes.isEmpty then currencyList store cs keyPrefix useCache
  else
    match cs.handle, cs.configured, useCache with
    | some cb, true, true =>
        (cb.getOrSet (keyPrefix ++ "_" ++ String.intercalate "_" (sortStrings codes))
          (whereIn store codes), 1)
    | _, _, _ => (Except.ok (whereIn store codes), 1)

/-- The raw parameters of `DatabaseExchange.convert` — each field may be
absent (`undefined`). -/
structure ConvertParams where
  amount : Option ℚ
  fromC : Option String
  toC : Option String

/-- `DatabaseExchange.convert(params)` from src/src/exchanges/database.ts.
The pre-initialized skeleton `result` (`success: false`, `rate: 1`,
`result: amount`) is spread into the missing-currency and invalid-rate
failure envelopes exactly as in the source. -/
def convert (store : Store) (cs : CacheState) (keyPrefix : String) (p : ConvertParams) :
    ConversionResult × Nat :=
  let q : ConvQuery := ⟨p.fromC, p.toC, p.amount⟩
  match p.amount with
  | none =>
      ({ success := false, query := q, info := ⟨none⟩, result := none,
         error := some ⟨"Invalid amount: must be greater than 0", none⟩ }, 0)
  | some a =>
    if a ≤ 0 then
      ({ success := false, query := q, info := ⟨none⟩, result := none,
         error := some ⟨"Invalid amount: must be greater than 0", none⟩ }, 0)
    else if strFalsy p.fromC || strFalsy p.toC then
      ({ success := false, query := q, info := ⟨none⟩, result := none,
         error := some ⟨"Invalid currency codes: from and to are required", none⟩ }, 0)
    else
      let f := p.fromC.getD ""
      let t := p.toC.getD ""
      let skel : ConversionResult :=
        { success := false, query := q, info := ⟨some 1⟩, result := some a, error := none }
      if f = t then ({ skel with success := true }, 0)
      else
        match getCurrenciesByCodes store cs keyPrefix [f, t] true with
        | (.error msg, n) =>
            ({ success := false, query := q, info := ⟨none⟩, result := none,
               error := some ⟨msg, some "database_error"⟩ }, n)
        | (.ok currencies, n) =>
          match currencies.find? (fun c => c.code == f),
              currencies.find? (fun c => c.code == t) with
          | none, _ =>
              ({ skel with error := some ⟨"Currency not found: " ++ f, none⟩ }, n)
          | some _, none =>
              ({ skel with error := some ⟨"Currency not found: " ++ t, none⟩ }, n)
          | some fromCurrency, some toCurrency =>
            if rateFalsy fromCurrency.rate || rateFalsy toCurrency.rate then
              ({ skel with error := some ⟨"Invalid exchange rates found in database", none⟩ }, n)
            else
              let fromRate := fromCurrency.rate.getD 0
              let toRate := toCurrency.rate.getD 0
              let convertRate := (1 / fromRate) * toRate
              ({ skel with
                  success := true
                  info := ⟨some convertRate⟩
                  result := some (a * convertRate) }, n)

/-- `!currencyCodes || currencyCodes.length === 0 || currencyCodes.includes(code)`. -/
def codesFilter (codes : Option (List String)) (c : String) : Bool :=
  match codes with
  | none => true
  | some [] => true
  | some l => l.contains c

/-- The `latestRates` loop over fetched records: skip records whose code
is falsy or whose rate is `undefined`/`null` (a rate of `0` is kept),
filter by the requested codes, and assign into the `rates` object. -/
def buildRates (codes : Option (List String)) : List CurrencyRecord → List (String × ℚ) →
    List (String × ℚ)
  | [], acc => acc
  | r :: rs, acc =>
      if r.code = "" ∨ r.rate = none then buildRates codes rs acc
      else if codesFilter codes r.code then
        buildRates codes rs (insertRate acc r.code (r.rate.getD 0))
      else buildRates codes rs acc

/-- `currencyCodes?.length ? 'No matching currencies found for codes: …'
: 'No valid currencies found in database'`. -/
def noMatchMessage (codes : Option (List String)) : String :=
  match codes with
  | some (c :: rest) =>
      "No matching currencies found for codes: " ++ String.intercalate ", " (c :: rest)
  | _ => "No valid currencies found in database"

/-- `DatabaseExchange.latestRates(params)` from
src/src/exchanges/database.ts; `base` is the already-defaulted base
parameter, `cacheFlag` the `cache = true` parameter.  The
`updatedAt`-tracking only stamps the clock fields, which are outside the
model. -/
def latestRates (store : Store) (cs : CacheState) (keyPrefix : String) (base : String)
    (codes : Option (List String)) (cacheFlag : Bool) : RatesResult × Nat :=
  let r0 : RatesResult := { success := false, base := base, rates := [], error := none }
  match currencyList store cs keyPrefix cacheFlag with
  | (.error msg, n) => ({ r0 with error := some ⟨msg, some "database_error"⟩ }, n)
  | (.ok currencies, n) =>
    if currencies.isEmpty then
      ({ r0 with error := some ⟨"No currencies found in database", some "database_error"⟩ }, n)
    else
      let rates := buildRates codes currencies []
      if rates.isEmpty then
        ({ r0 with
            rates := rates
            error := some ⟨noMatchMessage codes, some "database_error"⟩ }, n)
      else ({ r0 with success := true, rates := rates }, n)

/-- The memoization state behind `#ensureCacheSetup`: `promise` holds the
identity of the stored in-flight setup operation (`cacheSetupPromise`),
`runs` counts how many times `#setupCache` has been started.  In the
single-threaded event-loop model the synchronous check-and-assign prefix
of `#ensureCacheSetup` is atomic, so concurrent callers are an arbitrary
sequence of calls on this state. -/
structure CacheSetupState where
  promise : Option Nat
  runs : Nat
  deriving DecidableEq, Repr

/-- One call to `DatabaseExchange.#ensureCacheSetup()`: return the stored
promise when present, otherwise start `#setupCache` (a fresh operation,
identified by the run counter) and store it.  The `.catch` reset in the
source only fires when `#setupCache` rejects, which it never does (it
catches internally), so it is a no-op here. -/
def ensureCacheSetup : CacheSetupState → Nat × CacheSetupState
  | ⟨some p, n⟩ => (p, ⟨some p, n⟩)
  | ⟨none, n⟩ => (n, ⟨some n, n + 1⟩)

/-- A sequence of `k` (interleaved or successive) calls to
`#ensureCacheSetup`, collecting the operation each caller awaits. -/
def ensureCalls : Nat → CacheSetupState → List Nat × CacheSetupState
  | 0, s => ([], s)
  | k + 1, s =>
      let c := ensureCacheSetup s
      let rest := ensureCalls k c.2
      (c.1 :: rest.1, rest.2)

/-- `DatabaseExchange.#setupCache()`: nothing to do when `config.cache`
is falsy; otherwise resolve the cache service, catching any error
(`console.warn`) and leaving `this.cache` unset.  Total — it never
throws to its caller. -/
def setupCache (cacheConfigured : Bool) (resolve : Except String ListCacheBackend) :
    Option ListCacheBackend :=
  if cacheConfigured then
    match resolve with
    | .ok cb => some cb
    | .error _ => none
  else none

/-- A cache backend whose `getOrSet` always throws — the source wraps
this call in no `try`/`catch` of its own. -/
def throwingListBackend : ListCacheBackend :=
  ⟨fun _ _ => Except.error "Cache backend unavailable"⟩

end DatabaseExchange

namespace DatabaseExchange

/-- A cache handle behaves read-through when `getOrSet` always returns
the value its `factory` (the direct storage read) produces. -/
def ReadThrough (cb : ListCacheBackend) : Prop :=
  ∀ k v, cb.getOrSet k v = Except.ok v

/-- A cache state whose handle, if any, is read-through. -/
def TransparentCache (cs : CacheState) : Prop :=
  ∀ cb, cs.handle = some cb → ReadThrough cb

theorem currencyList_transparent (store : Store) (cs : CacheState) (kp : String)
    (u : Bool) (h : TransparentCache cs) :
    currencyList store cs kp u = (Except.ok store, 1) := by
  unfold currencyList
  rcases hc : cs.handle with _ | cb
  · rfl
  · rcases cs.configured <;> rcases u <;> simp [h cb hc kp store]

end DatabaseExchange

namespace DatabaseExchange

theorem getCurrenciesByCodes_transparent (store : Store) (cs : CacheState) (kp : String)
    (codes : List String) (u : Bool) (h : TransparentCache cs) (hne : codes ≠ []) :
    getCurrenciesByCodes store cs kp codes u = (Except.ok (whereIn store codes), 1) := by
  unfold getCurrenciesByCodes
  rw [if_neg (by simpa using hne)]
  rcases hc : cs.handle with _ | cb
  · rfl
  · rcases cs.configured <;> rcases u <;>
      simp [h cb hc (kp ++ "_" ++ String.intercalate "_" (sortStrings codes))
        (whereIn store codes)]

theorem ensureCalls_memoized (k : Nat) (p n : Nat) :
    ensureCalls k ⟨some p, n⟩ = (List.replicate k p, ⟨some p, n⟩) := by
  induction k with
  | zero => rfl
  | succ j ih => simp [ensureCalls, ensureCacheSetup, ih, List.replicate]

end DatabaseExchange

theorem find_filter_of_imp {α : Type} (p q : α → Bool) (l : List α)
    (h : ∀ r, q r = true → p r = true) :
    (l.filter p).find? q = l.find? q := by
  induction l with
  | nil => rfl
  | cons r rs ih =>
    by_cases hq : q r = true
    · rw [List.filter_cons_of_pos (h r hq), List.find?_cons_of_pos _ hq,
        List.find?_cons_of_pos _ hq]
    · rw [List.find?_cons_of_neg _ hq]
      by_cases hp : p r = true
      · rw [List.filter_cons_of_pos hp, List.find?_cons_of_neg _ hq]
        exact ih
      · rw [List.filter_cons_of_neg (by simpa using hp)]
        exact ih

theorem find_whereIn (store : Store) (codes : List String) (c : String)
    (hc : codes.contains c = true) :
    (whereIn store codes).find? (fun r => r.code == c) = findFirst store c := by
  unfold whereIn findFirst
  exact find_filter_of_imp _ _ store (fun r hr => by
    have : r.code = c := by simpa using hr
    simpa [this] using hc)

theorem rateFalsy_false_ne_zero {o : Option ℚ} (h : rateFalsy o = false) : o.getD 0 ≠ 0 := by
  cases o with
  | none => simp [rateFalsy] at h
  | some v => simpa [rateFalsy] using h

/-- C10: in `DatabaseProvider.#getExchangeRate`, a stored rate of `0` for
the `from` currency of the cross-rate path is already rejected by the
preceding falsiness check (`!fromRate[this.columns.rate]`) with the
"Exchange rate not found" error, so the explicit `fromRateValue === 0`
guard that would raise "Invalid exchange rate" is unreachable: every
run resolves a rate or throws a `rateNotFound` error. -/
theorem databaseProvider_zero_guard_unreachable (base : String) (store : Store)
    (fromC toC : String) :
    (∃ q n, DatabaseProvider.getExchangeRate base store fromC toC = (Except.ok q, n)) ∨
    (∃ c n, DatabaseProvider.getExchangeRate base store fromC toC =
      (Except.error (DatabaseProvider.RateError.rateNotFound c), n)) := by
  unfold DatabaseProvider.getExchangeRate
  repeat' split
  any_goals exact Or.inl ⟨_, _, rfl⟩
  any_goals exact Or.inr ⟨_, _, rfl⟩
  rename_i hfr x tr heq htr hz
  exact absurd hz (rateFalsy_false_ne_zero (by simpa using hfr))

/-- C6: in `DatabaseProvider.#getExchangeRate`, conversions involving the
base currency never look up the base currency's own record — its rate is
1.0 by convention.  With no stored record for `base`, converting from
`base` to a currency whose stored rate is `r` resolves rate `r`, and
converting to `base` resolves rate `1 / r`. -/
theorem databaseProvider_base_rate_synthesized (base : String) (store : Store)
    (c : String) (rec : CurrencyRecord) (r : ℚ)
    (_hbase : findFirst store base = none) (hc : c ≠ base)
    (hrec : findFirst store c = some rec) (hrate : rec.rate = some r) (hr : r ≠ 0) :
    DatabaseProvider.getExchangeRate base store base c = (Except.ok r, 1) ∧
    DatabaseProvider.getExchangeRate base store c base = (Except.ok (1 / r), 1) := by
  have hfalsy : rateFalsy rec.rate = false := by simp [rateFalsy, hrate, hr]
  constructor
  · unfold DatabaseProvider.getExchangeRate
    rw [if_neg (by simp [hc]), if_pos rfl, hrec]
    simp [rateFalsy, hrate, hr]
  · unfold DatabaseProvider.getExchangeRate
    rw [if_neg (by simp [hc]), if_neg hc, if_pos rfl, hrec]
    simp [rateFalsy, hrate, hr]

/-- Witness for C6 at a concrete store with no `USD` record. -/
theorem databaseProvider_base_rate_synthesized_witness :
    DatabaseProvider.getExchangeRate "USD" [⟨"EUR", some 2, none⟩] "USD" "EUR" =
      (Except.ok 2, 1) ∧
    DatabaseProvider.getExchangeRate "USD" [⟨"EUR", some 2, none⟩] "EUR" "USD" =
      (Except.ok (1 / 2), 1) :=
  databaseProvider_base_rate_synthesized "USD" [⟨"EUR", some 2, none⟩] "EUR"
    ⟨"EUR", some 2, none⟩ 2 (by decide) (by decide) (by decide) rfl (by decide)

/-- C2: converting a positive amount from a currency to itself succeeds
with `result = amount` and `info.rate = 1`, in both provider
generations, and issues zero storage queries. -/
theorem convert_same_currency_identity (store : Store) (cs : DatabaseExchange.CacheState)
    (kp : String) (base : String) (cacheActive : Bool)
    (cb : DatabaseProvider.RateCacheBackend) (a : ℚ) (X : String)
    (ha : 0 < a) (hX : X ≠ "") :
    DatabaseExchange.convert store cs kp ⟨some a, some X, some X⟩ =
      ({ success := true, query := ⟨some X, some X, some a⟩, info := ⟨some 1⟩,
         result := some a, error := none }, 0) ∧
    DatabaseProvider.convert base store cacheActive cb kp a X X =
      ({ success := true, query := ⟨some X, some X, some a⟩, info := ⟨some 1⟩,
         result := some a, error := none }, 0) := by
  constructor
  · unfold DatabaseExchange.convert
    simp [strFalsy, hX, not_le.mpr ha]
  · unfold DatabaseProvider.convert
    simp

/-- Witness for C2 at `amount = 100`, `X = "USD"`. -/
theorem convert_same_currency_identity_witness :
    DatabaseExchange.convert [] ⟨none, false⟩ "currency" ⟨some 100, some "USD", some "USD"⟩ =
      ({ success := true, query := ⟨some "USD", some "USD", some 100⟩, info := ⟨some 1⟩,
         result := some 100, error := none }, 0) ∧
    DatabaseProvider.convert "USD" [] false ⟨fun _ => Except.ok none⟩ "currency" 100 "USD" "USD" =
      ({ success := true, query := ⟨some "USD", some "USD", some 100⟩, info := ⟨some 1⟩,
         result := some 100, error := none }, 0) :=
  convert_same_currency_identity [] ⟨none, false⟩ "currency" "USD" false
    ⟨fun _ => Except.ok none⟩ 100 "USD" (by decide) (by decide)

/-- C5: `DatabaseExchange.convert` rejects an absent or non-positive
`amount` and missing (absent or empty) `from`/`to` codes with an
`InvalidInput`-class failure envelope and zero storage queries. -/
theorem convert_invalid_input_no_storage (store : Store) (cs : DatabaseExchange.CacheState)
    (kp : String) (p : DatabaseExchange.ConvertParams) :
    ((p.amount = none ∨ ∃ a, p.amount = some a ∧ a ≤ 0) →
      DatabaseExchange.convert store cs kp p =
        ({ success := false, query := ⟨p.fromC, p.toC, p.amount⟩, info := ⟨none⟩,
           result := none,
           error := some ⟨"Invalid amount: must be greater than 0", none⟩ }, 0)) ∧
    ((∃ a, p.amount = some a ∧ 0 < a) →
      (strFalsy p.fromC = true ∨ strFalsy p.toC = true) →
      DatabaseExchange.convert store cs kp p =
        ({ success := false, query := ⟨p.fromC, p.toC, p.amount⟩, info := ⟨none⟩,
           result := none,
           error := some ⟨"Invalid currency codes: from and to are required", none⟩ }, 0)) := by
  obtain ⟨am, f, t⟩ := p
  constructor
  · rintro (ham | ⟨a, ham, hle⟩)
    · subst ham
      simp [DatabaseExchange.convert]
    · subst ham
      simp [DatabaseExchange.convert, hle]
  · rintro ⟨a, ham, hpos⟩ hcodes
    subst ham
    rcases hcodes with h | h <;> simp [DatabaseExchange.convert, not_le.mpr hpos, h]

/-- Witness for C5: zero amount, then a missing `to` code. -/
theorem convert_invalid_input_no_storage_witness :
    DatabaseExchange.convert [] ⟨none, false⟩ "currency" ⟨some 0, some "USD", some "EUR"⟩ =
      ({ success := false, query := ⟨some "USD", some "EUR", some 0⟩, info := ⟨none⟩,
         result := none,
         error := some ⟨"Invalid amount: must be greater than 0", none⟩ }, 0) ∧
    DatabaseExchange.convert [] ⟨none, false⟩ "currency" ⟨some 100, some "USD", none⟩ =
      ({ success := false, query := ⟨some "USD", none, some 100⟩, info := ⟨none⟩,
         result := none,
         error := some ⟨"Invalid currency codes: from and to are required", none⟩ }, 0) :=
  ⟨(convert_invalid_input_no_storage [] ⟨none, false⟩ "currency"
      ⟨some 0, some "USD", some "EUR"⟩).1 (Or.inr ⟨0, rfl, by decide⟩),
   (convert_invalid_input_no_storage [] ⟨none, false⟩ "currency"
      ⟨some 100, some "USD", none⟩).2 ⟨100, rfl, by decide⟩ (Or.inr rfl)⟩

/-- C9: in `DatabaseExchange.convert`, the missing-currency and
invalid-rate failure envelopes are `{ ...result, error: ... }` spreads of
the pre-initialized skeleton, so they report `success = false` while
still carrying `result = amount` and `info.rate = 1` next to the error
description. -/
theorem convert_failure_spreads_skeleton (store : Store) (cs : DatabaseExchange.CacheState)
    (kp : String) (a : ℚ) (f t : String) (currencies : List CurrencyRecord) (n : Nat)
    (ha : 0 < a) (hf : f ≠ "") (ht : t ≠ "") (hft : f ≠ t)
    (hfetch : DatabaseExchange.getCurrenciesByCodes store cs kp [f, t] true =
      (Except.ok currencies, n))
    (hbranch : currencies.find? (fun c => c.code == f) = none ∨
      (∃ fc, currencies.find? (fun c => c.code == f) = some fc ∧
        (currencies.find? (fun c => c.code == t) = none ∨
          (∃ tc, currencies.find? (fun c => c.code == t) = some tc ∧
            (rateFalsy fc.rate = true ∨ rateFalsy tc.rate = true))))) :
    (DatabaseExchange.convert store cs kp ⟨some a, some f, some t⟩).1.success = false ∧
    (DatabaseExchange.convert store cs kp ⟨some a, some f, some t⟩).1.result = some a ∧
    (DatabaseExchange.convert store cs kp ⟨some a, some f, some t⟩).1.info.rate = some 1 ∧
    (DatabaseExchange.convert store cs kp ⟨some a, some f, some t⟩).1.error ≠ none := by
  rcases hbranch with hnone | ⟨fc, hfc, hrest⟩
  · simp [DatabaseExchange.convert, not_le.mpr ha, strFalsy, hf, ht, hft, hfetch, hnone]
  · rcases hrest with htnone | ⟨tc, htc, hfalsy⟩
    · simp [DatabaseExchange.convert, not_le.mpr ha, strFalsy, hf, ht, hft, hfetch, hfc,
        htnone]
    · rcases hfalsy with h | h <;>
        simp [DatabaseExchange.convert, not_le.mpr ha, strFalsy, hf, ht, hft, hfetch, hfc,
          htc, h]

/-- Witness for C9: missing `ZZZ` record on an empty store. -/
theorem convert_failure_spreads_skeleton_witness :
    (DatabaseExchange.convert [] ⟨none, false⟩ "currency"
      ⟨some 100, some "USD", some "ZZZ"⟩).1.success = false ∧
    (DatabaseExchange.convert [] ⟨none, false⟩ "currency"
      ⟨some 100, some "USD", some "ZZZ"⟩).1.result = some 100 ∧
    (DatabaseExchange.convert [] ⟨none, false⟩ "currency"
      ⟨some 100, some "USD", some "ZZZ"⟩).1.info.rate = some 1 ∧
    (DatabaseExchange.convert [] ⟨none, false⟩ "currency"
      ⟨some 100, some "USD", some "ZZZ"⟩).1.error ≠ none :=
  convert_failure_spreads_skeleton [] ⟨none, false⟩ "currency" 100 "USD" "ZZZ" [] 1
    (by decide) (by decide) (by decide) (by decide) (by decide) (Or.inl (by decide))

/-- C3: when the stored rate of the `from` currency is `0` and both
records are present (the cross-rate computation of
`DatabaseExchange.convert`), the `!fromRate || !toRate` guard fires
before the `1 / fromRate` division: the call returns `success = false`
with the `InvalidRate`-class error and the skeleton `result = amount`
(never a quotient — in particular no `Infinity`/`NaN` can reach
`result`, and the model's exact rationals have none). -/
theorem convert_zero_rate_guard (store : Store) (cs : DatabaseExchange.CacheState)
    (kp : String) (a : ℚ) (f t : String) (fc tc : CurrencyRecord)
    (hcache : DatabaseExchange.TransparentCache cs)
    (ha : 0 < a) (hf : f ≠ "") (ht : t ≠ "") (hft : f ≠ t)
    (hfc : findFirst store f = some fc) (hzero : fc.rate = some 0)
    (htc : findFirst store t = some tc) :
    (DatabaseExchange.convert store cs kp ⟨some a, some f, some t⟩).1.success = false ∧
    (DatabaseExchange.convert store cs kp ⟨some a, some f, some t⟩).1.error =
      some ⟨"Invalid exchange rates found in database", none⟩ ∧
    (DatabaseExchange.convert store cs kp ⟨some a, some f, some t⟩).1.result = some a ∧
    (DatabaseExchange.convert store cs kp ⟨some a, some f, some t⟩).1.info.rate = some 1 := by
  have hfetch := DatabaseExchange.getCurrenciesByCodes_transparent store cs kp [f, t]
    true hcache (by simp)
  have hfindf : (whereIn store [f, t]).find? (fun r => r.code == f) = some fc := by
    rw [find_whereIn store [f, t] f (by simp)]
    exact hfc
  have hfindt : (whereIn store [f, t]).find? (fun r => r.code == t) = some tc := by
    rw [find_whereIn store [f, t] t (by simp)]
    exact htc
  have hfalsy : rateFalsy fc.rate = true := by simp [rateFalsy, hzero]
  simp [DatabaseExchange.convert, not_le.mpr ha, strFalsy, hf, ht, hft, hfetch, hfindf,
    hfindt, hfalsy]

/-- Witness for C3: `EUR` stored with rate `0`, `GBP` with rate `3`. -/
theorem convert_zero_rate_guard_witness :
    (DatabaseExchange.convert [⟨"EUR", some 0, none⟩, ⟨"GBP", some 3, none⟩] ⟨none, false⟩
      "currency" ⟨some 100, some "EUR", some "GBP"⟩).1.success = false ∧
    (DatabaseExchange.convert [⟨"EUR", some 0, none⟩, ⟨"GBP", some 3, none⟩] ⟨none, false⟩
      "currency" ⟨some 100, some "EUR", some "GBP"⟩).1.error =
      some ⟨"Invalid exchange rates found in database", none⟩ ∧
    (DatabaseExchange.convert [⟨"EUR", some 0, none⟩, ⟨"GBP", some 3, none⟩] ⟨none, false⟩
      "currency" ⟨some 100, some "EUR", some "GBP"⟩).1.result = some 100 ∧
    (DatabaseExchange.convert [⟨"EUR", some 0, none⟩, ⟨"GBP", some 3, none⟩] ⟨none, false⟩
      "currency" ⟨some 100, some "EUR", some "GBP"⟩).1.info.rate = some 1 :=
  convert_zero_rate_guard [⟨"EUR", some 0, none⟩, ⟨"GBP", some 3, none⟩] ⟨none, false⟩
    "currency" 100 "EUR" "GBP" ⟨"EUR", some 0, none⟩ ⟨"GBP", some 3, none⟩
    (fun _ h => nomatch h) (by decide) (by decide) (by decide) (by decide)
    (by decide) rfl (by decide)

/-- C4: `DatabaseExchange.latestRates` reports `success = true` exactly
when at least one rate was resolved into the `rates` mapping; and when
the fetch itself succeeded but nothing was resolved, the error message
distinguishes an empty table ("No currencies found in database") from a
non-matching state — a non-empty codes filter yields "No matching
currencies found for codes: …", otherwise "No valid currencies found in
database". -/
theorem latestRates_success_iff (store : Store) (cs : DatabaseExchange.CacheState)
    (kp base : String) (codes : Option (List String)) (flag : Bool) :
    ((DatabaseExchange.latestRates store cs kp base codes flag).1.success = true ↔
      (DatabaseExchange.latestRates store cs kp base codes flag).1.rates ≠ []) ∧
    (∀ recs n, DatabaseExchange.currencyList store cs kp flag = (Except.ok recs, n) →
      (DatabaseExchange.latestRates store cs kp base codes flag).1.success = false →
      (DatabaseExchange.latestRates store cs kp base codes flag).1.error =
        some ⟨if recs.isEmpty then "No currencies found in database"
              else DatabaseExchange.noMatchMessage codes, some "database_error"⟩) := by
  rcases hcl : DatabaseExchange.currencyList store cs kp flag with ⟨res, n0⟩
  rcases res with msg | recs
  · constructor
    · simp [DatabaseExchange.latestRates, hcl]
    · intro recs2 n2 h
      simp at h
  · by_cases hempty : recs.isEmpty = true
    · constructor
      · simp [DatabaseExchange.latestRates, hcl, hempty]
      · intro recs2 n2 h hfail
        injection h with h1 h2
        injection h1 with h3
        subst h3
        simp [DatabaseExchange.latestRates, hcl, hempty]
    · rcases hb : DatabaseExchange.buildRates codes recs [] with _ | ⟨x, xs⟩
      · constructor
        · simp [DatabaseExchange.latestRates, hcl, hempty, hb]
        · intro recs2 n2 h hfail
          injection h with h1 h2
          injection h1 with h3
          subst h3
          simp [DatabaseExchange.latestRates, hcl, hempty, hb]
      · constructor
        · simp [DatabaseExchange.latestRates, hcl, hempty, hb]
        · intro recs2 n2 h hfail
          injection h with h1 h2
          injection h1 with h3
          subst h3
          simp [DatabaseExchange.latestRates, hcl, hempty, hb] at hfail

/-- Witness for C4 on the empty store: no rate resolved, empty-table
message. -/
theorem latestRates_success_iff_witness :
    ((DatabaseExchange.latestRates [] ⟨none, false⟩ "currency" "USD" none true).1.success =
        true ↔
      (DatabaseExchange.latestRates [] ⟨none, false⟩ "currency" "USD" none true).1.rates ≠
        []) ∧
    (DatabaseExchange.latestRates [] ⟨none, false⟩ "currency" "USD" none true).1.error =
      some ⟨"No currencies found in database", some "database_error"⟩ :=
  ⟨(latestRates_success_iff [] ⟨none, false⟩ "currency" "USD" none true).1, by
    have h := (latestRates_success_iff [] ⟨none, false⟩ "currency" "USD" none true).2
      [] 1 (by decide) (by decide)
    simpa using h⟩

/-- Counterexample to C1 as stated: with `EUR` stored at rate `0` and
`GBP` at rate `3` (base `USD`), the cross-rate resolution for
`EUR → GBP` does not fail with an `InvalidRate`-class error — the falsy
check fires first and throws the `RateNotFound`-class
"Exchange rate not found for currency: EUR". -/
theorem cross_rate_zero_counterexample :
    DatabaseProvider.getExchangeRate "USD" [⟨"EUR", some 0, none⟩, ⟨"GBP", some 3, none⟩]
        "EUR" "GBP" =
      (Except.error (DatabaseProvider.RateError.rateNotFound "EUR"), 2) ∧
    ¬ ∃ c n, DatabaseProvider.getExchangeRate "USD"
        [⟨"EUR", some 0, none⟩, ⟨"GBP", some 3, none⟩] "EUR" "GBP" =
      (Except.error (DatabaseProvider.RateError.invalidRate c), n) := by
  constructor
  · decide
  · rintro ⟨c, n, h⟩
    rw [show DatabaseProvider.getExchangeRate "USD"
        [⟨"EUR", some 0, none⟩, ⟨"GBP", some 3, none⟩] "EUR" "GBP" =
        (Except.error (DatabaseProvider.RateError.rateNotFound "EUR"), 2) by decide] at h
    injection h with h1 h2
    injection h1 with h3
    cases h3

/-- C1 (amended): for non-base `from`/`to`, the cross rate resolves to
`rate(to) / rate(from)` and `convert` multiplies it into the result —
provided both records are present with nonzero rates.  A missing record
fails with the `RateNotFound`-class error; a stored rate of `0` for
`from` (or a missing `to` record) also fails with the
`RateNotFound`-class error — not `InvalidRate`, because the falsiness
check precedes the zero guard. -/
theorem cross_rate_amended :
    (∀ (base : String) (store : Store) (f t : String) (fc tc : CurrencyRecord) (rf rt : ℚ),
      f ≠ base → t ≠ base → f ≠ t →
      findFirst store f = some fc → fc.rate = some rf → rf ≠ 0 →
      findFirst store t = some tc → tc.rate = some rt → rt ≠ 0 →
      DatabaseProvider.getExchangeRate base store f t = (Except.ok (rt / rf), 2) ∧
      ∀ (cb : DatabaseProvider.RateCacheBackend) (kp : String) (a : ℚ),
        DatabaseProvider.convert base store false cb kp a f t =
          ({ success := true, query := ⟨some f, some t, some a⟩, info := ⟨some (rt / rf)⟩,
             result := some (a * (rt / rf)), error := none }, 2)) ∧
    (∀ (base : String) (store : Store) (f t : String),
      f ≠ base → t ≠ base → findFirst store f = none →
      DatabaseProvider.getExchangeRate base store f t =
        (Except.error (DatabaseProvider.RateError.rateNotFound f), 2)) ∧
    (∀ (base : String) (store : Store) (f t : String) (fc : CurrencyRecord) (rf : ℚ),
      f ≠ base → t ≠ base → findFirst store f = some fc → fc.rate = some rf → rf ≠ 0 →
      findFirst store t = none →
      DatabaseProvider.getExchangeRate base store f t =
        (Except.error (DatabaseProvider.RateError.rateNotFound t), 2)) ∧
    (∀ (base : String) (store : Store) (f t : String) (fc : CurrencyRecord),
      f ≠ base → t ≠ base → findFirst store f = some fc → fc.rate = some 0 →
      DatabaseProvider.getExchangeRate base store f t =
        (Except.error (DatabaseProvider.RateError.rateNotFound f), 2)) := by
  refine ⟨?_, ?_, ?_, ?_⟩
  · intro base store f t fc tc rf rt hfb htb hft hfc hrf hrf0 htc hrt hrt0
    have hfalsyf : rateFalsy fc.rate = false := by simp [rateFalsy, hrf, hrf0]
    have hfalsyt : rateFalsy tc.rate = false := by simp [rateFalsy, hrt, hrt0]
    have hrate : DatabaseProvider.getExchangeRate base store f t =
        (Except.ok (rt / rf), 2) := by
      unfold DatabaseProvider.getExchangeRate
      rw [if_neg (by simp [hfb]), if_neg hfb, if_neg htb, hfc]
      simp [rateFalsy, htc, hrf, hrt, hrf0, hrt0]
    refine ⟨hrate, ?_⟩
    intro cb kp a
    unfold DatabaseProvider.convert
    rw [if_neg hft]
    simp [DatabaseProvider.getFromCache, DatabaseProvider.convertFetch, hrate]
  · intro base store f t hfb htb hnone
    unfold DatabaseProvider.getExchangeRate
    rw [if_neg (by simp [hfb]), if_neg hfb, if_neg htb, hnone]
  · intro base store f t fc rf hfb htb hfc hrf hrf0 htnone
    have hfalsyf : rateFalsy fc.rate = false := by simp [rateFalsy, hrf, hrf0]
    unfold DatabaseProvider.getExchangeRate
    rw [if_neg (by simp [hfb]), if_neg hfb, if_neg htb, hfc]
    simp [hfalsyf, htnone]
  · intro base store f t fc hfb htb hfc hzero
    have hfalsyf : rateFalsy fc.rate = true := by simp [rateFalsy, hzero]
    unfold DatabaseProvider.getExchangeRate
    rw [if_neg (by simp [hfb]), if_neg hfb, if_neg htb, hfc]
    simp [hfalsyf]

/-- Witness for the amended C1: `EUR = 2`, `GBP = 3` relative to base
`USD`, plus a missing-record case on the empty store. -/
theorem cross_rate_amended_witness :
    (DatabaseProvider.getExchangeRate "USD"
        [⟨"EUR", some 2, none⟩, ⟨"GBP", some 3, none⟩] "EUR" "GBP" =
      (Except.ok (3 / 2), 2) ∧
    DatabaseProvider.convert "USD" [⟨"EUR", some 2, none⟩, ⟨"GBP", some 3, none⟩] false
        ⟨fun _ => Except.ok none⟩ "currency" 100 "EUR" "GBP" =
      ({ success := true, query := ⟨some "EUR", some "GBP", some 100⟩,
         info := ⟨some (3 / 2)⟩, result := some (100 * (3 / 2)), error := none }, 2)) ∧
    DatabaseProvider.getExchangeRate "USD" [] "EUR" "GBP" =
      (Except.error (DatabaseProvider.RateError.rateNotFound "EUR"), 2) :=
  ⟨by
    have h := cross_rate_amended.1 "USD" [⟨"EUR", some 2, none⟩, ⟨"GBP", some 3, none⟩]
      "EUR" "GBP" ⟨"EUR", some 2, none⟩ ⟨"GBP", some 3, none⟩ 2 3
      (by decide) (by decide) (by decide) (by decide) rfl (by decide)
      (by decide) rfl (by decide)
    exact ⟨h.1, h.2 ⟨fun _ => Except.ok none⟩ "currency" 100⟩,
   cross_rate_amended.2.1 "USD" [] "EUR" "GBP" (by decide) (by decide) (by decide)⟩

/-- C7 (amended): cache errors in `DatabaseProvider.convert`'s rate
cache (`#getFromCache` / `setToCache`) are swallowed and treated as a
miss, so with a hit-free backend the cache-enabled envelope equals the
cache-disabled one; and `DatabaseExchange`'s `convert`/`latestRates` are
cache-transparent whenever the backend's `getOrSet` behaves read-through
— but not unconditionally, since the `getOrSet` call in `#currencyList`
/ `#getCurrenciesByCodes` is unguarded (see the counterexample). -/
theorem cache_transparency_amended :
    (∀ (base : String) (store : Store) (cb : DatabaseProvider.RateCacheBackend)
        (kp : String) (a : ℚ) (f t : String),
      (∀ k, cb.get k = Except.ok none ∨ ∃ m, cb.get k = Except.error m) →
      DatabaseProvider.convert base store true cb kp a f t =
        DatabaseProvider.convert base store false cb kp a f t) ∧
    (∀ (store : Store) (cs : DatabaseExchange.CacheState) (kp b : String)
        (codes : Option (List String)) (flag : Bool),
      DatabaseExchange.TransparentCache cs →
      DatabaseExchange.latestRates store cs kp b codes flag =
        DatabaseExchange.latestRates store ⟨none, false⟩ kp b codes flag) ∧
    (∀ (store : Store) (cs : DatabaseExchange.CacheState) (kp : String)
        (p : DatabaseExchange.ConvertParams),
      DatabaseExchange.TransparentCache cs →
      DatabaseExchange.convert store cs kp p =
        DatabaseExchange.convert store ⟨none, false⟩ kp p) := by
  refine ⟨?_, ?_, ?_⟩
  · intro base store cb kp a f t hnb
    unfold DatabaseProvider.convert
    by_cases hft : f = t
    · rw [if_pos hft, if_pos hft]
    · rw [if_neg hft, if_neg hft]
      have hmiss : DatabaseProvider.getFromCache true cb
          (kp ++ ":rate:" ++ f ++ ":" ++ t) = none := by
        unfold DatabaseProvider.getFromCache
        rcases hnb (kp ++ ":rate:" ++ f ++ ":" ++ t) with h | ⟨m, h⟩ <;> simp [h]
      rw [hmiss]
      simp [DatabaseProvider.getFromCache]
  · intro store cs kp b codes flag ht
    unfold DatabaseExchange.latestRates
    rw [DatabaseExchange.currencyList_transparent store cs kp flag ht,
      DatabaseExchange.currencyList_transparent store ⟨none, false⟩ kp flag
        (fun _ h => nomatch h)]
  · intro store cs kp p ht
    obtain ⟨am, fo, tg⟩ := p
    have hcg : ∀ codes : List String, codes ≠ [] →
        DatabaseExchange.getCurrenciesByCodes store cs kp codes true =
          DatabaseExchange.getCurrenciesByCodes store ⟨none, false⟩ kp codes true := by
      intro codes hne
      rw [DatabaseExchange.getCurrenciesByCodes_transparent store cs kp codes true ht hne,
        DatabaseExchange.getCurrenciesByCodes_transparent store ⟨none, false⟩ kp codes true
          (fun _ h => nomatch h) hne]
    rcases am with _ | a
    · simp [DatabaseExchange.convert]
    · by_cases hle : a ≤ 0
      · simp [DatabaseExchange.convert, hle]
      · by_cases hsf : strFalsy fo = true
        · simp [DatabaseExchange.convert, hle, hsf]
        · by_cases hst : strFalsy tg = true
          · simp [DatabaseExchange.convert, hle, hsf, hst]
          · by_cases hft : fo.getD "" = tg.getD ""
            · simp [DatabaseExchange.convert, hle, hsf, hst, hft]
            · simp [DatabaseExchange.convert, hle, hsf, hst, hft,
                hcg [fo.getD "", tg.getD ""] (by simp)]

/-- Counterexample to C7 as stated: a throwing `getOrSet` backend turns
an otherwise successful `latestRates` into a failure envelope carrying
the cache error, while the cache-disabled run succeeds — cache state is
not transparent in general. -/
theorem cache_transparency_counterexample :
    (DatabaseExchange.latestRates [⟨"EUR", some 2, none⟩]
        ⟨some DatabaseExchange.throwingListBackend, true⟩
        "currency" "USD" none true).1.success = false ∧
    (DatabaseExchange.latestRates [⟨"EUR", some 2, none⟩]
        ⟨some DatabaseExchange.throwingListBackend, true⟩
        "currency" "USD" none true).1.error =
      some ⟨"Cache backend unavailable", some "database_error"⟩ ∧
    (DatabaseExchange.latestRates [⟨"EUR", some 2, none⟩] ⟨none, false⟩
        "currency" "USD" none true).1.success = true := by
  decide

/-- Witness for the amended C7: a throwing rate-cache `get`, and a
transparent state for the record-list cache. -/
theorem cache_transparency_amended_witness :
    DatabaseProvider.convert "USD" [⟨"EUR", some 2, none⟩] true
        ⟨fun _ => Except.error "down"⟩ "currency" 100 "EUR" "USD" =
      DatabaseProvider.convert "USD" [⟨"EUR", some 2, none⟩] false
        ⟨fun _ => Except.error "down"⟩ "currency" 100 "EUR" "USD" ∧
    DatabaseExchange.latestRates [⟨"EUR", some 2, none⟩] ⟨none, true⟩ "currency" "USD"
        none true =
      DatabaseExchange.latestRates [⟨"EUR", some 2, none⟩] ⟨none, false⟩ "currency" "USD"
        none true ∧
    DatabaseExchange.convert [⟨"EUR", some 2, none⟩] ⟨none, true⟩ "currency"
        ⟨some 100, some "EUR", some "USD"⟩ =
      DatabaseExchange.convert [⟨"EUR", some 2, none⟩] ⟨none, false⟩ "currency"
        ⟨some 100, some "EUR", some "USD"⟩ :=
  ⟨cache_transparency_amended.1 "USD" [⟨"EUR", some 2, none⟩]
      ⟨fun _ => Except.error "down"⟩ "currency" 100 "EUR" "USD"
      (fun _ => Or.inr ⟨"down", rfl⟩),
   cache_transparency_amended.2.1 [⟨"EUR", some 2, none⟩] ⟨none, true⟩ "currency" "USD"
      none true (fun _ h => nomatch h),
   cache_transparency_amended.2.2 [⟨"EUR", some 2, none⟩] ⟨none, true⟩ "currency"
      ⟨some 100, some "EUR", some "USD"⟩ (fun _ h => nomatch h)⟩

/-- C8: `#ensureCacheSetup` is idempotent and single-flight — any
sequence of `k ≥ 1` (interleaved or successive) calls starting from the
fresh state runs `#setupCache` exactly once and hands every caller the
same stored operation.  `#setupCache` is total (never rejects): a failed
cache-service resolution is caught and leaves `this.cache` unset, and
with the cache unset `latestRates` falls through to direct storage
reads, identical to a never-configured cache handle. -/
theorem ensure_cache_setup_single_flight :
    (∀ k : Nat, 1 ≤ k →
      (DatabaseExchange.ensureCalls k ⟨none, 0⟩).2 = ⟨some 0, 1⟩ ∧
      ∀ p ∈ (DatabaseExchange.ensureCalls k ⟨none, 0⟩).1, p = 0) ∧
    (∀ (cfg : Bool) (msg : String),
      DatabaseExchange.setupCache cfg (Except.error msg) = none) ∧
    (∀ (store : Store) (kp b : String) (codes : Option (List String)) (flag : Bool)
        (msg : String),
      DatabaseExchange.latestRates store
          ⟨DatabaseExchange.setupCache true (Except.error msg), true⟩ kp b codes flag =
        DatabaseExchange.latestRates store ⟨none, true⟩ kp b codes flag) := by
  refine ⟨?_, ?_, ?_⟩
  · intro k hk
    rcases k with _ | j
    · exact absurd hk (by decide)
    · constructor
      · simp [DatabaseExchange.ensureCalls, DatabaseExchange.ensureCacheSetup,
          DatabaseExchange.ensureCalls_memoized]
      · intro p hp
        rw [show DatabaseExchange.ensureCalls (j + 1) ⟨none, 0⟩ =
            (0 :: List.replicate j 0, ⟨some 0, 1⟩) from by
          simp [DatabaseExchange.ensureCalls, DatabaseExchange.ensureCacheSetup,
            DatabaseExchange.ensureCalls_memoized]] at hp
        rcases List.mem_cons.mp hp with h | h
        · exact h
        · exact List.eq_of_mem_replicate h
  · intro cfg msg
    cases cfg <;> rfl
  · intro store kp b codes flag msg
    rfl

/-- Witness for C8 at two successive calls and a failing resolution. -/
theorem ensure_cache_setup_single_flight_witness :
    (DatabaseExchange.ensureCalls 2 ⟨none, 0⟩).2 = ⟨some 0, 1⟩ ∧
    DatabaseExchange.setupCache true (Except.error "no cache service") = none ∧
    DatabaseExchange.latestRates [⟨"EUR", some 2, none⟩]
        ⟨DatabaseExchange.setupCache true (Except.error "no cache service"), true⟩
        "currency" "USD" none true =
      DatabaseExchange.latestRates [⟨"EUR", some 2, none⟩] ⟨none, true⟩ "currency" "USD"
        none true :=
  ⟨(ensure_cache_setup_single_flight.1 2 (by decide)).1,
   ensure_cache_setup_single_flight.2.1 true "no cache service",
   ensure_cache_setup_single_flight.2.2 [⟨"EUR", some 2, none⟩] "currency" "USD" none true
     "no cache service"⟩
